import Mathlib

/-!
Verification of the scan-loop core of `main.py` (Blue Archive autoplay).

The Python source is shallowly embedded: pure helpers (`region_from_percent`,
`match_template`) become Lean functions on exact rationals; the stateful
worker (`AutoClicker`) becomes explicit state passing, with screen captures,
synthesized input events and callback invocations modelled as explicit
effect values; exceptions become `Except`.  The OpenCV library calls made by
the source (`cv2.cvtColor`, `cv2.matchTemplate` with `TM_CCOEFF_NORMED`,
`cv2.minMaxLoc`) are embedded according to OpenCV's documented semantics.
-/

-- Batteries marks the `Rat` field operations `@[irreducible]`, which blocks
-- `decide`/`rfl` evaluation of concrete rational arithmetic; the kernel is
-- unaffected, so restoring the default reducibility locally is harmless.
set_option allowUnsafeReducibility true

attribute [local semireducible] Rat.add Rat.mul Rat.sub Rat.inv Rat.ofScientific

namespace BlueArchiveAutoplay

/-- A decoded colour bitmap of width `w` and height `h`: `px y x` gives the
`(B, G, R)` channel values (each `0..255`) of the pixel in row `y`, column
`x`.  This represents the `numpy` arrays produced by `cv2.imread` and by
`screenshot_region` in `main.py`. -/
structure Img where
  w : ℕ
  h : ℕ
  px : ℕ → ℕ → ℕ × ℕ × ℕ

/-- One pixel of `cv2.cvtColor(·, cv2.COLOR_BGR2GRAY)`: OpenCV's fixed-point
luma transform `(4899·R + 9617·G + 1868·B + 2^13) >> 14` (the coefficients
are `0.299`, `0.587`, `0.114` scaled by `2^14`). -/
def grayAt (i : Img) (y x : ℕ) : ℕ :=
  (4899 * (i.px y x).2.2 + 9617 * (i.px y x).2.1 + 1868 * (i.px y x).1 + 8192) / 16384

/-- An exact representation of one normalised cross-correlation score: the
pair `(n, d)` stands for the real number `n / √d` (with `d ≥ 0`).  Keeping
the radicand unevaluated lets every comparison made by the scan loop be
decided exactly over `ℚ`. -/
abbrev Score := ℚ × ℚ

/-- Normalise a raw score: OpenCV's `TM_CCOEFF_NORMED` post-processing maps a
(near-)zero denominator to the score `0` (in exact arithmetic the numerator
is necessarily `0` in that case), represented canonically as `(0, 1)`. -/
def mkScore (n d : ℚ) : Score :=
  if d = 0 then (0, 1) else (n, d)

/-- Decide `p.1 / √p.2 ≤ q.1 / √q.2` (for non-negative radicands) by sign
analysis and cross-squaring; this is the comparison `cv2.minMaxLoc` and the
`max_val >= threshold` test perform on score values. -/
def sleB (p q : Score) : Bool :=
  if p.1 < 0 then
    if q.1 < 0 then decide (q.1 ^ 2 * p.2 ≤ p.1 ^ 2 * q.2)
    else true
  else
    if q.1 < 0 then false
    else decide (p.1 ^ 2 * q.2 ≤ q.1 ^ 2 * p.2)

/-- One step of `cv2.minMaxLoc`'s scan for the maximum: the running best is
replaced only when the current entry is strictly greater, so the first
location attaining the maximum (in scan order) is kept. -/
def bestStep (best cur : (ℕ × ℕ) × Score) : (ℕ × ℕ) × Score :=
  if sleB cur.2 best.2 then best else cur

/-- Mean intensity of the `w × h` window of `i` whose top-left corner is
`(ox, oy)`. -/
def meanR (i : Img) (ox oy w h : ℕ) : ℚ :=
  (∑ y in Finset.range h, ∑ x in Finset.range w, (grayAt i (oy + y) (ox + x) : ℚ)) /
    ((w : ℚ) * (h : ℚ))

/-- Numerator of the `TM_CCOEFF_NORMED` score at offset `(ox, oy)`:
`Σ (I − mean I)·(T − mean T)` over the template-sized window. -/
def cSum (i t : Img) (ox oy : ℕ) : ℚ :=
  ∑ y in Finset.range t.h, ∑ x in Finset.range t.w,
    ((grayAt i (oy + y) (ox + x) : ℚ) - meanR i ox oy t.w t.h) *
      ((grayAt t y x : ℚ) - meanR t 0 0 t.w t.h)

/-- Centred second moment `Σ (I − mean I)^2` of the `w × h` window of `i` at
`(ox, oy)`. -/
def vSum (i : Img) (ox oy w h : ℕ) : ℚ :=
  ∑ y in Finset.range h, ∑ x in Finset.range w,
    ((grayAt i (oy + y) (ox + x) : ℚ) - meanR i ox oy w h) ^ 2

/-- The `TM_CCOEFF_NORMED` score of template `t` over image `i` at offset
`(ox, oy)`, as the exact pair `(n, d)` standing for `n / √d`.  Per OpenCV: a
zero-variance (constant) template makes the whole result surface `1`; a
constant window yields score `0` (handled by `mkScore`). -/
def scoreAt (i t : Img) (ox oy : ℕ) : Score :=
  if vSum t 0 0 t.w t.h = 0 then (1, 1)
  else mkScore (cSum i t ox oy) (vSum t 0 0 t.w t.h * vSum i ox oy t.w t.h)

/-- The score surface produced by `cv2.matchTemplate`, listed in the
row-major order in which `cv2.minMaxLoc` scans it; entries are
`((ox, oy), score)`. -/
def surface (i t : Img) : List ((ℕ × ℕ) × Score) :=
  (List.range (i.h - t.h + 1)).flatMap fun oy =>
    (List.range (i.w - t.w + 1)).map fun ox => ((ox, oy), scoreAt i t ox oy)

/-- The maximum of the score surface together with its location: the first
entry (in scan order) attaining the maximal score, exactly as
`cv2.minMaxLoc` reports `max_loc`/`max_val`. -/
def surfaceBest (i t : Img) : (ℕ × ℕ) × Score :=
  match surface i t with
  | [] => ((0, 0), (0, 1))
  | e :: es => es.foldl bestStep e

/-- Failure of the matching operation: `cv2.matchTemplate` raises an OpenCV
assertion error when the template exceeds the image in either dimension. -/
inductive MatchErr where
  | dimensionMismatch
deriving DecidableEq

/-- Embedding of `match_template` (main.py lines 106–116): convert both
inputs to grayscale, compute the `TM_CCOEFF_NORMED` score surface, take its
global maximum and location via `cv2.minMaxLoc`, and if `max_val ≥
threshold` return the match centre `max_loc + (w / 2, h / 2)` (floor
division), else `none`.  A template larger than the image in either
dimension makes `cv2.matchTemplate` raise, modelled as `Except.error`. -/
def match_template (image template : Img) (threshold : ℚ) :
    Except MatchErr (Option (ℕ × ℕ)) :=
  if template.w ≤ image.w ∧ template.h ≤ image.h then
    if sleB (threshold, 1) (surfaceBest image template).2 then
      Except.ok (some ((surfaceBest image template).1.1 + template.w / 2,
        (surfaceBest image template).1.2 + template.h / 2))
    else Except.ok none
  else Except.error MatchErr.dimensionMismatch

/-- Python's `int()` applied to a non-negative float: truncation toward
zero. -/
def pyTrunc (q : ℚ) : ℤ := Int.tdiv q.num (q.den : ℤ)

/-- Embedding of `region_from_percent` (main.py lines 90–96); the
`pyautogui.size()` screen dimensions are passed explicitly.  The zone is
`(x1, y1, x2, y2)` in fractions of the screen; the result is `(x, y, w, h)`
in pixels. -/
def region_from_percent (zone : ℚ × ℚ × ℚ × ℚ) (screen_w screen_h : ℕ) :
    ℤ × ℤ × ℤ × ℤ :=
  let x1 := pyTrunc ((screen_w : ℚ) * zone.1)
  let y1 := pyTrunc ((screen_h : ℚ) * zone.2.1)
  let x2 := pyTrunc ((screen_w : ℚ) * zone.2.2.1)
  let y2 := pyTrunc ((screen_h : ℚ) * zone.2.2.2)
  (x1, y1, x2 - x1, y2 - y1)

instance {ε α : Type} [DecidableEq ε] [DecidableEq α] : DecidableEq (Except ε α) :=
  fun a b =>
    match a, b with
    | Except.error e, Except.error f =>
        if h : e = f then Decidable.isTrue (congrArg Except.error h)
        else Decidable.isFalse fun hh => h (Except.error.inj hh)
    | Except.error _, Except.ok _ => Decidable.isFalse fun hh => Except.noConfusion hh
    | Except.ok _, Except.error _ => Decidable.isFalse fun hh => Except.noConfusion hh
    | Except.ok a, Except.ok b =>
        if h : a = b then Decidable.isTrue (congrArg Except.ok h)
        else Decidable.isFalse fun hh => h (Except.ok.inj hh)

/-- One template descriptor of the static configuration (an entry of
`TEMPLATES`, or `AUTOMENU_TEMPLATE` / `REWARD_TEMPLATE`). -/
structure TemplateCfg where
  name : String
  path : String
  zone : ℚ × ℚ × ℚ × ℚ
  threshold : ℚ

/-- The `TEMPLATES` configuration list (main.py lines 25–62). -/
def TEMPLATES : List TemplateCfg :=
  [⟨"confirm_button", "templates/confirm.png", (77/100, 84/100, 99/100, 99/100), 85/100⟩,
   ⟨"yellow_confirm_button", "templates/confirm2.png", (35/100, 82/100, 62/100, 99/100), 85/100⟩,
   ⟨"watch_button", "templates/watch.png", (48/100, 65/100, 73/100, 80/100), 85/100⟩,
   ⟨"enter_button", "templates/enter.png", (26/100, 70/100, 73/100, 89/100), 85/100⟩,
   ⟨"mobilize_button", "templates/mobilize.png", (80/100, 80/100, 99/100, 99/100), 85/100⟩,
   ⟨"enter_episode", "templates/enter_episode.png", (36/100, 63/100, 63/100, 78/100), 85/100⟩]

/-- The `AUTOMENU_TEMPLATE` descriptor (main.py lines 66–71). -/
def AUTOMENU_TEMPLATE : TemplateCfg :=
  ⟨"automenu", "templates/automenu.png", (68/100, 1/100, 99/100, 14/100), 85/100⟩

/-- The `REWARD_TEMPLATE` descriptor (main.py lines 73–78). -/
def REWARD_TEMPLATE : TemplateCfg :=
  ⟨"reward", "templates/reward.png", (23/100, 14/100, 72/100, 28/100), 85/100⟩

/-- `DEFAULT_DELAY` (main.py line 80). -/
def DEFAULT_DELAY : ℚ := 1

/-- Fatal configuration failure: `load_template` raises `FileNotFoundError`
for a missing or unreadable reference image (main.py lines 84–88). -/
inductive InitErr where
  | fileNotFound (path : String)
deriving DecidableEq

/-- Embedding of `load_template` (main.py lines 84–88).  The filesystem is
passed explicitly as a partial map from paths to decoded images;
`cv2.imread` returning `None` becomes `Except.error`. -/
def load_template (fs : String → Option Img) (path : String) : Except InitErr Img :=
  match fs path with
  | some img => Except.ok img
  | none => Except.error (InitErr.fileNotFound path)

/-- A template after preloading in `AutoClicker.__init__`: the configuration
entry enriched with its decoded image (`t["image"]`) and its absolute screen
region (`t["region_abs"]`). -/
structure LoadedTemplate where
  name : String
  image : Img
  region_abs : ℤ × ℤ × ℤ × ℤ
  threshold : ℚ

/-- The state of an `AutoClicker` worker (main.py lines 120–141): the
preloaded normal templates, the scan delay, the cooperative stop flag, the
per-template click counters (in the insertion order of the Python dict), the
presence of the `on_update` callback, the session start time (`None` until
`run` begins), and the preloaded interrupt templates. -/
structure Clicker where
  templates : List LoadedTemplate
  delay : ℚ
  stop_flag : Bool
  click_counts : List (String × ℕ)
  on_update : Bool
  start_time : Option ℚ
  automenu : LoadedTemplate
  reward : LoadedTemplate

/-- The body of the preloading `for` loop of `AutoClicker.__init__` (main.py
lines 131–133): load one template's image and derive its absolute region. -/
def loadOne (fs : String → Option Img) (screen_w screen_h : ℕ) (t : TemplateCfg) :
    Except InitErr LoadedTemplate := do
  let img ← load_template fs t.path
  pure (LoadedTemplate.mk t.name img (region_from_percent t.zone screen_w screen_h)
    t.threshold)

/-- Embedding of `AutoClicker.__init__` (main.py lines 121–141): build the
zeroed counter dict, preload every configured template (image from the
filesystem, absolute region from its zone), then preload the automenu and
reward interrupt templates.  A missing image raises; zones are used only
through `region_from_percent`. -/
def initAutoClicker (fs : String → Option Img) (screen_w screen_h : ℕ)
    (templates : List TemplateCfg) (delay : ℚ) (on_update : Bool) :
    Except InitErr Clicker := do
  let loaded ← templates.mapM (loadOne fs screen_w screen_h)
  let amImg ← load_template fs AUTOMENU_TEMPLATE.path
  let rwImg ← load_template fs REWARD_TEMPLATE.path
  pure
    { templates := loaded
      delay := delay
      stop_flag := false
      click_counts := templates.map fun t => (t.name, 0)
      on_update := on_update
      start_time := none
      automenu := LoadedTemplate.mk AUTOMENU_TEMPLATE.name amImg
        (region_from_percent AUTOMENU_TEMPLATE.zone screen_w screen_h)
        AUTOMENU_TEMPLATE.threshold
      reward := LoadedTemplate.mk REWARD_TEMPLATE.name rwImg
        (region_from_percent REWARD_TEMPLATE.zone screen_w screen_h)
        REWARD_TEMPLATE.threshold }

/-- Failure of `screenshot_region` (main.py lines 98–104): the `mss` backend
cannot produce a frame. -/
inductive CapErr where
  | captureUnavailable
deriving DecidableEq

/-- An uncaught exception escaping the body of `AutoClicker.run`: the worker
has no exception handling, so either failure terminates the thread. -/
inductive RunErr where
  | captureFail
  | dimensionMismatch
deriving DecidableEq

/-- An observable action performed by the scan loop, in order: a screen
capture (`screenshot_region`), a synthesized click (`pyautogui.click`), a
synthesized key press (`pyautogui.press`), a sleep (`time.sleep`), or an
invocation of the `on_update` callback with the counter mapping and the
elapsed session time. -/
inductive Effect where
  | capture (region : ℤ × ℤ × ℤ × ℤ)
  | click (x y : ℤ)
  | press (key : String)
  | sleep (seconds : ℚ)
  | update (counts : List (String × ℕ)) (elapsed : ℚ)
deriving DecidableEq

/-- The external environment observed during one iteration of the `while`
loop: the frames the capture backend delivers for each requested region, the
value of `time.time()` during the iteration, and the state of the stop flag
as sampled at the top of the loop. -/
structure TickEnv where
  cap : ℤ × ℤ × ℤ × ℤ → Except CapErr Img
  tnow : ℚ
  stopFlag : Bool

/-- `self.click_counts[name] += 1` on the counter dict. -/
def bump (counts : List (String × ℕ)) (name : String) : List (String × ℕ) :=
  counts.map fun p => if p.1 = name then (p.1, p.2 + 1) else p

/-- Read a counter from the dict (`0` if the key is absent). -/
def lookupCount (counts : List (String × ℕ)) (name : String) : ℕ :=
  match counts with
  | [] => 0
  | p :: rest => if p.1 = name then p.2 else lookupCount rest name

/-- The `for t in self.templates` body of `AutoClicker.run` (main.py lines
170–181): capture each remaining template's region, match it, and on a hit
click at the absolute centre, bump the counter and invoke `on_update` (when
configured).  Either a capture failure or a matching failure is an uncaught
exception that aborts the whole loop. -/
def scanNormal (env : TickEnv) (onUpd : Bool) (t0 : ℚ) (ts : List LoadedTemplate)
    (counts : List (String × ℕ)) :
    Except RunErr (List (String × ℕ) × List Effect) :=
  match ts with
  | [] => Except.ok (counts, [])
  | t :: rest =>
    match env.cap t.region_abs with
    | Except.error _ => Except.error RunErr.captureFail
    | Except.ok shot =>
      match match_template shot t.image t.threshold with
      | Except.error _ => Except.error RunErr.dimensionMismatch
      | Except.ok none =>
        match scanNormal env onUpd t0 rest counts with
        | Except.error e => Except.error e
        | Except.ok (cf, ef) => Except.ok (cf, Effect.capture t.region_abs :: ef)
      | Except.ok (some (cx, cy)) =>
        let counts' := bump counts t.name
        match scanNormal env onUpd t0 rest counts' with
        | Except.error e => Except.error e
        | Except.ok (cf, ef) =>
          Except.ok (cf,
            Effect.capture t.region_abs ::
              Effect.click (t.region_abs.1 + cx) (t.region_abs.2.1 + cy) ::
                ((if onUpd then [Effect.update counts' (env.tnow - t0)] else []) ++ ef))

/-- One iteration of the `while not self.stop_flag.is_set()` loop of
`AutoClicker.run` (main.py lines 145–182): check the automenu interrupt
first (on a hit press ESC, wait 2 s, press ENTER, sleep the delay and start
the next iteration), then the reward interrupt (on a hit press ENTER, sleep
and continue), and otherwise scan the normal templates and sleep the
delay.  `t0` is the session start time recorded at the top of `run`. -/
def tick (env : TickEnv) (c : Clicker) (t0 : ℚ) :
    Except RunErr (Clicker × List Effect) :=
  match env.cap c.automenu.region_abs with
  | Except.error _ => Except.error RunErr.captureFail
  | Except.ok amShot =>
    match match_template amShot c.automenu.image c.automenu.threshold with
    | Except.error _ => Except.error RunErr.dimensionMismatch
    | Except.ok (some _) =>
      Except.ok (c,
        [Effect.capture c.automenu.region_abs, Effect.press ("esc"), Effect.sleep 2,
          Effect.press ("enter"), Effect.sleep c.delay])
    | Except.ok none =>
      match env.cap c.reward.region_abs with
      | Except.error _ => Except.error RunErr.captureFail
      | Except.ok rwShot =>
        match match_template rwShot c.reward.image c.reward.threshold with
        | Except.error _ => Except.error RunErr.dimensionMismatch
        | Except.ok (some _) =>
          Except.ok (c,
            [Effect.capture c.automenu.region_abs, Effect.capture c.reward.region_abs,
              Effect.press ("enter"), Effect.sleep c.delay])
        | Except.ok none =>
          match scanNormal env c.on_update t0 c.templates c.click_counts with
          | Except.error e => Except.error e
          | Except.ok (cf, ef) =>
            Except.ok ({ c with click_counts := cf },
              Effect.capture c.automenu.region_abs ::
                Effect.capture c.reward.region_abs :: (ef ++ [Effect.sleep c.delay]))

/-- The `while` loop of `AutoClicker.run`, driven by a list of per-iteration
environments: the loop exits normally when it observes the stop flag (or
when the modelled environment runs out), and an uncaught exception in any
iteration terminates the whole thread. -/
def runLoop (envs : List TickEnv) (c : Clicker) (t0 : ℚ) :
    Except RunErr (Clicker × List Effect) :=
  match envs with
  | [] => Except.ok (c, [])
  | env :: rest =>
    if env.stopFlag then Except.ok (c, [])
    else
      match tick env c t0 with
      | Except.error e => Except.error e
      | Except.ok (c', effs) =>
        match runLoop rest c' t0 with
        | Except.error e => Except.error e
        | Except.ok (cf, effs') => Except.ok (cf, effs ++ effs')

/-- Embedding of `AutoClicker.stop` (main.py lines 184–185): set the stop
flag and touch nothing else. -/
def Clicker.stop (c : Clicker) : Clicker := { c with stop_flag := true }

/-- The GUI state relevant to the start/stop/restart buttons of `App`
(main.py lines 189–259): whether a worker thread is alive, the displayed
per-template counter strings, and the displayed elapsed-time string. -/
structure AppSt where
  workerAlive : Bool
  countVars : List (String × String)
  timeVar : String
deriving DecidableEq

/-- Embedding of `App.start_clicker` (main.py lines 239–246): a no-op if a
worker is already alive, otherwise spawn a fresh worker (the displayed
variables are updated only later, by callbacks). -/
def start_clicker (st : AppSt) : AppSt :=
  if st.workerAlive then st else { st with workerAlive := true }

/-- Embedding of `App.stop_clicker` (main.py lines 255–259): if a worker is
alive, stop it and join; otherwise do nothing. -/
def stop_clicker (st : AppSt) : AppSt :=
  if st.workerAlive then { st with workerAlive := false } else st

/-- Embedding of `App.restart_clicker` (main.py lines 248–253): stop, then
reset every displayed counter to `"0"` and the elapsed display to
`"0.0 s"`.  No new worker is spawned. -/
def restart_clicker (st : AppSt) : AppSt :=
  let st1 := stop_clicker st
  { st1 with
    countVars := st1.countVars.map fun p => (p.1, "0")
    timeVar := "0.0 s" }

/-- A 2×1 all-black frame, used as a concrete captured screen region. -/
def flatImg : Img := ⟨2, 1, fun _ _ => (0, 0, 0)⟩

/-- A 2×1 non-constant reference image (intensities 0 and 2): over `flatImg`
its correlation score is 0, far below the 0.85 threshold. -/
def missTpl : Img := ⟨2, 1, fun _ x => if x = 0 then (0, 0, 0) else (2, 2, 2)⟩

/-- A 1×1 constant reference image: OpenCV's zero-variance special case makes
it match any frame with score 1. -/
def hitTpl : Img := ⟨1, 1, fun _ _ => (5, 5, 5)⟩

/-- A 4×1 frame with intensities `0, 2, 0, 2`: it contains `tplAB` as an
exact sub-region at offsets 0 and 2. -/
def imgAB : Img := ⟨4, 1, fun _ x => if x % 2 = 0 then (0, 0, 0) else (2, 2, 2)⟩

/-- A 2×1 reference with intensities `0, 2`. -/
def tplAB : Img := ⟨2, 1, fun _ x => if x = 0 then (0, 0, 0) else (2, 2, 2)⟩

/-- A 3×1 reference, strictly wider than `flatImg`. -/
def bigTpl : Img := ⟨3, 1, fun _ _ => (0, 0, 0)⟩

/-- Concrete loaded interrupt template (automenu slot) that misses on
`flatImg`. -/
def amT : LoadedTemplate := ⟨"automenu", missTpl, (0, 0, 2, 1), 85/100⟩

/-- Concrete loaded interrupt template (reward slot) that misses on
`flatImg`. -/
def rwT : LoadedTemplate := ⟨"reward", missTpl, (10, 0, 2, 1), 85/100⟩

/-- Concrete loaded interrupt template (automenu slot) that hits on any
frame. -/
def amHitT : LoadedTemplate := ⟨"automenu", hitTpl, (0, 0, 2, 1), 85/100⟩

/-- Concrete loaded normal template that hits on any frame. -/
def normHitT : LoadedTemplate := ⟨"confirm_button", hitTpl, (20, 0, 2, 1), 85/100⟩

/-- Concrete loaded normal template whose region the capture backend fails
on (see `envFail`). -/
def failT : LoadedTemplate := ⟨"first_button", hitTpl, (40, 0, 2, 1), 85/100⟩

/-- Concrete loaded normal template placed after `failT`. -/
def nextT : LoadedTemplate := ⟨"second_button", hitTpl, (30, 0, 2, 1), 85/100⟩

/-- Concrete worker whose interrupts miss and whose single normal template
hits. -/
def cW1 : Clicker :=
  ⟨[normHitT], 1, false, [("confirm_button", 0)], true, none, amT, rwT⟩

/-- Concrete worker whose automenu interrupt hits. -/
def cW2 : Clicker :=
  ⟨[normHitT], 1, false, [("confirm_button", 0)], true, none, amHitT, rwT⟩

/-- Concrete worker with two normal templates, the first of which sits in
the region the capture backend fails on. -/
def cW7 : Clicker :=
  ⟨[failT, nextT], 1, false, [("first_button", 0), ("second_button", 0)], true, none,
    amT, rwT⟩

/-- A tick environment whose capture backend always delivers `flatImg`. -/
def envAll : TickEnv := ⟨fun _ => Except.ok flatImg, 5, false⟩

/-- A tick environment whose capture backend fails exactly on `failT`'s
region and otherwise delivers `flatImg`. -/
def envFail : TickEnv :=
  ⟨fun r => if r = (40, 0, 2, 1) then Except.error CapErr.captureUnavailable
    else Except.ok flatImg, 5, false⟩

/-- A tick environment in which the stop flag has been observed set. -/
def envStop : TickEnv := ⟨fun _ => Except.ok flatImg, 0, true⟩

/-- A concrete GUI state with a live worker and non-zero displayed
counters. -/
def appSt0 : AppSt := ⟨true, [("confirm_button", "3")], "5.0 s"⟩

/-- A filesystem on which every path is readable. -/
def fsAll : String → Option Img := fun _ => some flatImg

/-- A template configuration whose zone violates `x1 < x2` and `y1 < y2`
(the zone is a single point, giving a zero-sized region). -/
def badCfg : TemplateCfg := ⟨"bad", "templates/bad.png", (1/2, 1/2, 1/2, 1/2), 85/100⟩

theorem sleB_refl (p : Score) : sleB p p = true := by
  unfold sleB
  split_ifs with h <;> simp

theorem sleB_total {p q : Score} (h : sleB p q = false) : sleB q p = true := by
  unfold sleB at h ⊢
  split_ifs at h ⊢ with h1 h2 <;> simp_all <;> linarith

theorem sleB_neg_nonneg {p q : Score} (hp : p.1 < 0) (hq : 0 ≤ q.1) :
    sleB p q = true := by
  unfold sleB
  rw [if_pos hp, if_neg (not_lt.mpr hq)]

theorem sleB_nonneg_neg {p q : Score} (hp : 0 ≤ p.1) (hq : q.1 < 0) :
    sleB p q = false := by
  unfold sleB
  rw [if_neg (not_lt.mpr hp), if_pos hq]

theorem sleB_nonneg_iff {p q : Score} (hp : 0 ≤ p.1) (hq : 0 ≤ q.1) :
    sleB p q = true ↔ p.1 ^ 2 * q.2 ≤ q.1 ^ 2 * p.2 := by
  unfold sleB
  rw [if_neg (not_lt.mpr hp), if_neg (not_lt.mpr hq)]
  exact ⟨fun h => of_decide_eq_true h, fun h => decide_eq_true h⟩

theorem sleB_neg_iff {p q : Score} (hp : p.1 < 0) (hq : q.1 < 0) :
    sleB p q = true ↔ q.1 ^ 2 * p.2 ≤ p.1 ^ 2 * q.2 := by
  unfold sleB
  rw [if_pos hp, if_pos hq]
  exact ⟨fun h => of_decide_eq_true h, fun h => decide_eq_true h⟩

theorem sleB_trans {p q r : Score} (hp : 0 < p.2) (hq : 0 < q.2) (hr : 0 < r.2)
    (h1 : sleB p q = true) (h2 : sleB q r = true) : sleB p r = true := by
  rcases lt_or_le p.1 0 with hsp | hsp <;> rcases lt_or_le q.1 0 with hsq | hsq <;>
    rcases lt_or_le r.1 0 with hsr | hsr
  · -- all negative
    have h1' := (sleB_neg_iff hsp hsq).mp h1
    have h2' := (sleB_neg_iff hsq hsr).mp h2
    refine (sleB_neg_iff hsp hsr).mpr ?_
    have k1 := mul_le_mul_of_nonneg_right h1' (le_of_lt hr)
    have k2 := mul_le_mul_of_nonneg_right h2' (le_of_lt hp)
    have key : r.1 ^ 2 * p.2 * q.2 ≤ p.1 ^ 2 * r.2 * q.2 := by nlinarith [k1, k2]
    exact le_of_mul_le_mul_right key hq
  · exact sleB_neg_nonneg hsp hsr
  · exact absurd h2 (by rw [sleB_nonneg_neg hsq hsr]; exact Bool.false_ne_true)
  · exact sleB_neg_nonneg hsp hsr
  · exact absurd h1 (by rw [sleB_nonneg_neg hsp hsq]; exact Bool.false_ne_true)
  · exact absurd h1 (by rw [sleB_nonneg_neg hsp hsq]; exact Bool.false_ne_true)
  · exact absurd h2 (by rw [sleB_nonneg_neg hsq hsr]; exact Bool.false_ne_true)
  · -- all non-negative
    have h1' := (sleB_nonneg_iff hsp hsq).mp h1
    have h2' := (sleB_nonneg_iff hsq hsr).mp h2
    refine (sleB_nonneg_iff hsp hsr).mpr ?_
    have k1 := mul_le_mul_of_nonneg_right h1' (le_of_lt hr)
    have k2 := mul_le_mul_of_nonneg_right h2' (le_of_lt hp)
    have key : p.1 ^ 2 * r.2 * q.2 ≤ r.1 ^ 2 * p.2 * q.2 := by nlinarith [k1, k2]
    exact le_of_mul_le_mul_right key hq

theorem vSum_nonneg (i : Img) (ox oy w h : ℕ) : 0 ≤ vSum i ox oy w h := by
  unfold vSum
  exact Finset.sum_nonneg fun _ _ => Finset.sum_nonneg fun _ _ => sq_nonneg _

theorem scoreAt_den_pos (i t : Img) (ox oy : ℕ) : 0 < (scoreAt i t ox oy).2 := by
  unfold scoreAt mkScore
  split_ifs with h1 h2 <;> norm_num
  exact lt_of_le_of_ne (mul_nonneg (vSum_nonneg t 0 0 t.w t.h) (vSum_nonneg i ox oy t.w t.h))
    (Ne.symm h2)

theorem mem_surface {i t : Img} {ox oy : ℕ} (hx : ox < i.w - t.w + 1)
    (hy : oy < i.h - t.h + 1) : ((ox, oy), scoreAt i t ox oy) ∈ surface i t := by
  unfold surface
  exact List.mem_flatMap.mpr ⟨oy, List.mem_range.mpr hy,
    List.mem_map.mpr ⟨ox, List.mem_range.mpr hx, rfl⟩⟩

theorem surface_mem_elim {i t : Img} {e : (ℕ × ℕ) × Score} (he : e ∈ surface i t) :
    ∃ ox oy, ox < i.w - t.w + 1 ∧ oy < i.h - t.h + 1 ∧
      e = ((ox, oy), scoreAt i t ox oy) := by
  unfold surface at he
  obtain ⟨oy, hoy, he⟩ := List.mem_flatMap.mp he
  obtain ⟨ox, hox, rfl⟩ := List.mem_map.mp he
  exact ⟨ox, oy, List.mem_range.mp hox, List.mem_range.mp hoy, rfl⟩

theorem surface_ne_nil (i t : Img) : surface i t ≠ [] :=
  List.ne_nil_of_mem (mem_surface (Nat.succ_pos _) (Nat.succ_pos _))

theorem bestStep_cases (best cur : (ℕ × ℕ) × Score) :
    bestStep best cur = best ∨ bestStep best cur = cur := by
  unfold bestStep
  split_ifs <;> simp

theorem foldBest_mem (e0 : (ℕ × ℕ) × Score) (l : List ((ℕ × ℕ) × Score)) :
    l.foldl bestStep e0 ∈ e0 :: l := by
  induction l generalizing e0 with
  | nil => simp
  | cons a l ih =>
    have h := ih (bestStep e0 a)
    simp only [List.foldl_cons]
    rcases List.mem_cons.mp h with h1 | h1
    · rcases bestStep_cases e0 a with hb | hb
      · exact List.mem_cons.mpr (Or.inl (h1.trans hb))
      · exact List.mem_cons.mpr (Or.inr (List.mem_cons.mpr (Or.inl (h1.trans hb))))
    · exact List.mem_cons.mpr (Or.inr (List.mem_cons.mpr (Or.inr h1)))

theorem foldBest_ge (e0 : (ℕ × ℕ) × Score) (l : List ((ℕ × ℕ) × Score))
    (hpos : ∀ e ∈ e0 :: l, 0 < e.2.2) :
    ∀ e ∈ e0 :: l, sleB e.2 (l.foldl bestStep e0).2 = true := by
  induction l generalizing e0 with
  | nil =>
    intro e he
    rw [List.mem_singleton.mp he]
    exact sleB_refl _
  | cons a l ih =>
    intro e he
    have hbc := bestStep_cases e0 a
    have hbpos : 0 < (bestStep e0 a).2.2 := by
      rcases hbc with hb | hb <;> rw [hb]
      · exact hpos e0 (List.mem_cons_self _ _)
      · exact hpos a (List.mem_cons.mpr (Or.inr (List.mem_cons_self _ _)))
    have hposs : ∀ x ∈ bestStep e0 a :: l, 0 < x.2.2 := by
      intro x hx
      rcases List.mem_cons.mp hx with rfl | hx'
      · exact hbpos
      · exact hpos x (List.mem_cons.mpr (Or.inr (List.mem_cons.mpr (Or.inr hx'))))
    have hfoldmem := foldBest_mem (bestStep e0 a) l
    have hfoldpos : 0 < (l.foldl bestStep (bestStep e0 a)).2.2 := hposs _ hfoldmem
    have hge := ih (bestStep e0 a) hposs
    have hb0 : sleB e0.2 (bestStep e0 a).2 = true := by
      unfold bestStep
      split_ifs with hsl
      · exact sleB_refl _
      · exact sleB_total (Bool.not_eq_true _ ▸ hsl)
    have hba : sleB a.2 (bestStep e0 a).2 = true := by
      unfold bestStep
      split_ifs with hsl
      · exact hsl
      · exact sleB_refl _
    simp only [List.foldl_cons]
    rcases List.mem_cons.mp he with rfl | he'
    · exact sleB_trans (hpos e (List.mem_cons_self _ _)) hbpos hfoldpos hb0
        (hge _ (List.mem_cons_self _ _))
    · rcases List.mem_cons.mp he' with rfl | he''
      · exact sleB_trans (hpos e (List.mem_cons.mpr (Or.inr (List.mem_cons_self _ _))))
          hbpos hfoldpos hba (hge _ (List.mem_cons_self _ _))
      · exact hge e (List.mem_cons.mpr (Or.inr he''))

theorem surface_pos {i t : Img} : ∀ e ∈ surface i t, 0 < e.2.2 := by
  intro e he
  obtain ⟨ox, oy, _, _, rfl⟩ := surface_mem_elim he
  exact scoreAt_den_pos i t ox oy

theorem surfaceBest_mem (i t : Img) : surfaceBest i t ∈ surface i t := by
  cases hs : surface i t with
  | nil => exact absurd hs (surface_ne_nil i t)
  | cons e es =>
    have heq : surfaceBest i t = es.foldl bestStep e := by
      unfold surfaceBest
      rw [hs]
    rw [heq]
    exact foldBest_mem e es

theorem surfaceBest_ge (i t : Img) :
    ∀ e ∈ surface i t, sleB e.2 (surfaceBest i t).2 = true := by
  intro e he
  cases hs : surface i t with
  | nil => exact absurd hs (surface_ne_nil i t)
  | cons e0 es =>
    have heq : surfaceBest i t = es.foldl bestStep e0 := by
      unfold surfaceBest
      rw [hs]
    have hpos : ∀ x ∈ e0 :: es, 0 < x.2.2 := fun x hx => surface_pos x (hs ▸ hx)
    rw [heq]
    exact foldBest_ge e0 es hpos e (hs ▸ he)

theorem surfaceBest_den_pos (i t : Img) : 0 < (surfaceBest i t).2.2 :=
  surface_pos _ (surfaceBest_mem i t)

theorem meanR_exact {i t : Img} {ox oy : ℕ}
    (hm : ∀ y < t.h, ∀ x < t.w, grayAt i (oy + y) (ox + x) = grayAt t y x) :
    meanR i ox oy t.w t.h = meanR t 0 0 t.w t.h := by
  unfold meanR
  congr 1
  simp only [Nat.zero_add]
  refine Finset.sum_congr rfl fun y hy => Finset.sum_congr rfl fun x hx => ?_
  rw [hm y (Finset.mem_range.mp hy) x (Finset.mem_range.mp hx)]

theorem vSum_exact {i t : Img} {ox oy : ℕ}
    (hm : ∀ y < t.h, ∀ x < t.w, grayAt i (oy + y) (ox + x) = grayAt t y x) :
    vSum i ox oy t.w t.h = vSum t 0 0 t.w t.h := by
  unfold vSum
  rw [meanR_exact hm]
  simp only [Nat.zero_add]
  refine Finset.sum_congr rfl fun y hy => Finset.sum_congr rfl fun x hx => ?_
  rw [hm y (Finset.mem_range.mp hy) x (Finset.mem_range.mp hx)]

theorem cSum_exact {i t : Img} {ox oy : ℕ}
    (hm : ∀ y < t.h, ∀ x < t.w, grayAt i (oy + y) (ox + x) = grayAt t y x) :
    cSum i t ox oy = vSum t 0 0 t.w t.h := by
  unfold cSum vSum
  rw [meanR_exact hm]
  simp only [Nat.zero_add]
  refine Finset.sum_congr rfl fun y hy => Finset.sum_congr rfl fun x hx => ?_
  rw [hm y (Finset.mem_range.mp hy) x (Finset.mem_range.mp hx)]
  exact (pow_two _).symm

theorem scoreAt_exact {i t : Img} {ox oy : ℕ}
    (hm : ∀ y < t.h, ∀ x < t.w, grayAt i (oy + y) (ox + x) = grayAt t y x) :
    scoreAt i t ox oy =
      if vSum t 0 0 t.w t.h = 0 then ((1 : ℚ), (1 : ℚ))
      else (vSum t 0 0 t.w t.h, vSum t 0 0 t.w t.h * vSum t 0 0 t.w t.h) := by
  unfold scoreAt
  by_cases h0 : vSum t 0 0 t.w t.h = 0
  · rw [if_pos h0, if_pos h0]
  · rw [if_neg h0, if_neg h0, cSum_exact hm, vSum_exact hm]
    unfold mkScore
    rw [if_neg (mul_ne_zero h0 h0)]

theorem sleB_threshold_exact {i t : Img} {ox oy : ℕ} {th : ℚ}
    (hm : ∀ y < t.h, ∀ x < t.w, grayAt i (oy + y) (ox + x) = grayAt t y x)
    (hth : th ≤ 1) : sleB (th, 1) (scoreAt i t ox oy) = true := by
  rw [scoreAt_exact hm]
  by_cases h0 : vSum t 0 0 t.w t.h = 0
  · rw [if_pos h0]
    rcases lt_or_le th 0 with hneg | hpos
    · exact sleB_neg_nonneg hneg (by norm_num)
    · refine (sleB_nonneg_iff hpos (by norm_num)).mpr ?_
      show th ^ 2 * 1 ≤ 1 ^ 2 * 1
      nlinarith
  · rw [if_neg h0]
    have hS : 0 < vSum t 0 0 t.w t.h :=
      lt_of_le_of_ne (vSum_nonneg t 0 0 t.w t.h) (Ne.symm h0)
    rcases lt_or_le th 0 with hneg | hpos
    · exact sleB_neg_nonneg hneg (le_of_lt hS)
    · refine (sleB_nonneg_iff hpos (le_of_lt hS)).mpr ?_
      show th ^ 2 * (vSum t 0 0 t.w t.h * vSum t 0 0 t.w t.h) ≤
        vSum t 0 0 t.w t.h ^ 2 * 1
      have h1 : th ^ 2 ≤ 1 := by nlinarith
      have h2 : 0 ≤ vSum t 0 0 t.w t.h * vSum t 0 0 t.w t.h :=
        mul_nonneg hS.le hS.le
      calc th ^ 2 * (vSum t 0 0 t.w t.h * vSum t 0 0 t.w t.h)
          ≤ 1 * (vSum t 0 0 t.w t.h * vSum t 0 0 t.w t.h) :=
            mul_le_mul_of_nonneg_right h1 h2
        _ = vSum t 0 0 t.w t.h ^ 2 * 1 := by ring

/-- C6: for every template strictly larger than the captured image in either
dimension, the matcher fails with the dimension-mismatch error (the
`cv2.matchTemplate` assertion) — it never returns a match and never silently
returns no-match. -/
theorem claim_C6_dimension_mismatch (i t : Img) (th : ℚ)
    (h : i.w < t.w ∨ i.h < t.h) :
    match_template i t th = Except.error MatchErr.dimensionMismatch := by
  have hc : ¬(t.w ≤ i.w ∧ t.h ≤ i.h) := by rcases h with h | h <;> omega
  unfold match_template
  rw [if_neg hc]

/-- Witness for C6 at a concrete input: a 3×1 template against a 2×1
image. -/
theorem claim_C6_dimension_mismatch_witness :
    (flatImg.w < bigTpl.w ∨ flatImg.h < bigTpl.h) ∧
    match_template flatImg bigTpl 1 = Except.error MatchErr.dimensionMismatch :=
  ⟨Or.inl (by decide), claim_C6_dimension_mismatch flatImg bigTpl 1 (Or.inl (by decide))⟩

/-- C3, counterexample: `tplAB` is identical to the sub-region of `imgAB` at
offset `(2, 0)`, and the threshold `1 ≤ 1.0`, yet the returned centre is
`(1, 0)` (the first raster-order maximum, at offset `(0, 0)`), not
`(2 + w/2, 0 + h/2) = (3, 0)` as the claim requires. -/
theorem claim_C3_counterexample :
    (∀ y < tplAB.h, ∀ x < tplAB.w, grayAt imgAB (0 + y) (2 + x) = grayAt tplAB y x) ∧
    (1 : ℚ) ≤ 1 ∧
    match_template imgAB tplAB 1 = Except.ok (some (1, 0)) ∧
    ((1 : ℕ), (0 : ℕ)) ≠ (2 + tplAB.w / 2, 0 + tplAB.h / 2) := by
  refine ⟨by decide, le_refl 1, ?_, by decide⟩
  rfl

/-- C3, amended: the matcher greys both inputs, computes the normalised
cross-correlation surface, takes the first raster-order location of the
global maximum and returns found=true with centre = that location plus
`(w/2, h/2)` (floor division) iff the maximum clears the threshold; in
particular, when the template occurs as an exact sub-region of the image
(anywhere), the matcher returns found=true for any threshold ≤ 1.0, with
centre = first maximal location + `(w/2, h/2)` — which is the claimed
`(ox + w/2, oy + h/2)` only when `(ox, oy)` is that first maximal
location. -/
theorem claim_C3_matcher (i t : Img) (th : ℚ) (ox oy : ℕ)
    (hox : ox + t.w ≤ i.w) (hoy : oy + t.h ≤ i.h)
    (hm : ∀ y < t.h, ∀ x < t.w, grayAt i (oy + y) (ox + x) = grayAt t y x)
    (hth : th ≤ 1) :
    match_template i t th =
      Except.ok (some ((surfaceBest i t).1.1 + t.w / 2,
        (surfaceBest i t).1.2 + t.h / 2)) := by
  have hw : t.w ≤ i.w := le_trans (Nat.le_add_left _ _) hox
  have hh : t.h ≤ i.h := le_trans (Nat.le_add_left _ _) hoy
  have hxlt : ox < i.w - t.w + 1 := Nat.lt_succ_of_le (Nat.le_sub_of_add_le hox)
  have hylt : oy < i.h - t.h + 1 := Nat.lt_succ_of_le (Nat.le_sub_of_add_le hoy)
  have hmem : ((ox, oy), scoreAt i t ox oy) ∈ surface i t := mem_surface hxlt hylt
  have hentry : sleB (th, 1) (scoreAt i t ox oy) = true := sleB_threshold_exact hm hth
  have hbest := surfaceBest_ge i t _ hmem
  have hfound : sleB (th, 1) (surfaceBest i t).2 = true :=
    sleB_trans (by norm_num) (scoreAt_den_pos i t ox oy) (surfaceBest_den_pos i t)
      hentry hbest
  unfold match_template
  rw [if_pos ⟨hw, hh⟩, if_pos hfound]

/-- Witness for the amended C3 at a concrete input: `tplAB` occurs in
`imgAB` at offset `(0, 0)`, and the matcher indeed finds it there. -/
theorem claim_C3_matcher_witness :
    (0 + tplAB.w ≤ imgAB.w ∧ 0 + tplAB.h ≤ imgAB.h ∧
      (∀ y < tplAB.h, ∀ x < tplAB.w, grayAt imgAB (0 + y) (0 + x) = grayAt tplAB y x) ∧
      (1 : ℚ) ≤ 1) ∧
    match_template imgAB tplAB 1 =
      Except.ok (some ((surfaceBest imgAB tplAB).1.1 + tplAB.w / 2,
        (surfaceBest imgAB tplAB).1.2 + tplAB.h / 2)) :=
  ⟨⟨by decide, by decide, by decide, le_refl 1⟩,
    claim_C3_matcher imgAB tplAB 1 0 0 (by decide) (by decide) (by decide) (le_refl 1)⟩

theorem pyTrunc_eq_floor {q : ℚ} (h : 0 ≤ q) : pyTrunc q = ⌊q⌋ := by
  have hnum : 0 ≤ q.num := Rat.num_nonneg.mpr h
  unfold pyTrunc
  rw [Int.tdiv_eq_ediv hnum (Int.natCast_nonneg q.den)]
  rw [← Rat.floor_intCast_div_natCast q.num q.den, Rat.num_div_den]

/-- C4, counterexample: the zone `(1/4 ≤) 0.51 < 0.59 (≤ 1)` is valid, the
screen is 10×10, yet both `0.51 · 10` and `0.59 · 10` truncate to 5, so the
computed width is `0`, not positive. -/
theorem claim_C4_counterexample :
    ((0 : ℚ) ≤ 51/100 ∧ (51 : ℚ)/100 < 59/100 ∧ (59 : ℚ)/100 ≤ 1 ∧
      (0 : ℚ) ≤ 0 ∧ (0 : ℚ) < 1 ∧ (1 : ℚ) ≤ 1 ∧ (0 : ℕ) < 10) ∧
    region_from_percent (51/100, 0, 59/100, 1) 10 10 = (5, 0, 0, 10) ∧
    ¬(0 < (region_from_percent (51/100, 0, 59/100, 1) 10 10).2.2.1) := by
  refine ⟨by norm_num, by decide, by decide⟩

/-- C4, amended: for a valid zone and a positive screen size, the region
mapper computes the truncations exactly as claimed and the region is
contained in `[0,W) × [0,H)` with non-negative width and height; the width
and height are moreover positive whenever the zone spans at least one full
pixel in the respective direction (`(x2−x1)·W ≥ 1`, `(y2−y1)·H ≥ 1`) — but
not in general, as the counterexample shows. -/
theorem claim_C4_region_bounds (z1 zy1 z2 zy2 : ℚ) (W H : ℕ)
    (hW : 0 < W) (hH : 0 < H)
    (h1 : 0 ≤ z1) (h2 : z1 < z2) (h3 : z2 ≤ 1)
    (h4 : 0 ≤ zy1) (h5 : zy1 < zy2) (h6 : zy2 ≤ 1) :
    region_from_percent (z1, zy1, z2, zy2) W H =
      (⌊(W : ℚ) * z1⌋, ⌊(H : ℚ) * zy1⌋, ⌊(W : ℚ) * z2⌋ - ⌊(W : ℚ) * z1⌋,
        ⌊(H : ℚ) * zy2⌋ - ⌊(H : ℚ) * zy1⌋) ∧
    0 ≤ ⌊(W : ℚ) * z1⌋ ∧ ⌊(W : ℚ) * z1⌋ ≤ ⌊(W : ℚ) * z2⌋ ∧ ⌊(W : ℚ) * z2⌋ ≤ (W : ℤ) ∧
    0 ≤ ⌊(H : ℚ) * zy1⌋ ∧ ⌊(H : ℚ) * zy1⌋ ≤ ⌊(H : ℚ) * zy2⌋ ∧ ⌊(H : ℚ) * zy2⌋ ≤ (H : ℤ) ∧
    (1 ≤ (z2 - z1) * W → ⌊(W : ℚ) * z1⌋ < ⌊(W : ℚ) * z2⌋) ∧
    (1 ≤ (zy2 - zy1) * H → ⌊(H : ℚ) * zy1⌋ < ⌊(H : ℚ) * zy2⌋) := by
  have hWq : (0 : ℚ) ≤ (W : ℚ) := Nat.cast_nonneg W
  have hHq : (0 : ℚ) ≤ (H : ℚ) := Nat.cast_nonneg H
  have h2' : 0 ≤ z2 := le_of_lt (lt_of_le_of_lt h1 h2)
  have h5' : 0 ≤ zy2 := le_of_lt (lt_of_le_of_lt h4 h5)
  have e1 := pyTrunc_eq_floor (mul_nonneg hWq h1)
  have e2 := pyTrunc_eq_floor (mul_nonneg hHq h4)
  have e3 := pyTrunc_eq_floor (mul_nonneg hWq h2')
  have e4 := pyTrunc_eq_floor (mul_nonneg hHq h5')
  refine ⟨?_, ?_, ?_, ?_, ?_, ?_, ?_, ?_, ?_⟩
  · simp only [region_from_percent]
    rw [e1, e2, e3, e4]
  · exact Int.floor_nonneg.mpr (mul_nonneg hWq h1)
  · exact Int.floor_le_floor (mul_le_mul_of_nonneg_left (le_of_lt h2) hWq)
  · calc ⌊(W : ℚ) * z2⌋ ≤ ⌊(W : ℚ)⌋ :=
          Int.floor_le_floor (by nlinarith)
      _ = (W : ℤ) := Int.floor_natCast W
  · exact Int.floor_nonneg.mpr (mul_nonneg hHq h4)
  · exact Int.floor_le_floor (mul_le_mul_of_nonneg_left (le_of_lt h5) hHq)
  · calc ⌊(H : ℚ) * zy2⌋ ≤ ⌊(H : ℚ)⌋ :=
          Int.floor_le_floor (by nlinarith)
      _ = (H : ℤ) := Int.floor_natCast H
  · intro hspan
    have hle : (W : ℚ) * z1 + 1 ≤ (W : ℚ) * z2 := by nlinarith
    have := Int.floor_le_floor hle
    rw [Int.floor_add_one] at this
    omega
  · intro hspan
    have hle : (H : ℚ) * zy1 + 1 ≤ (H : ℚ) * zy2 := by nlinarith
    have := Int.floor_le_floor hle
    rw [Int.floor_add_one] at this
    omega

/-- Witness for the amended C4 at a concrete input: zone
`(1/4, 1/4, 3/4, 3/4)` on an 8×8 screen yields region `(2, 2, 4, 4)`. -/
theorem claim_C4_region_bounds_witness :
    region_from_percent (1/4, 1/4, 3/4, 3/4) 8 8 = (2, 2, 4, 4) ∧
    ⌊(8 : ℚ) * (1/4)⌋ < ⌊(8 : ℚ) * (3/4)⌋ := by
  have h := claim_C4_region_bounds (1/4) (1/4) (3/4) (3/4) 8 8 (by norm_num)
    (by norm_num) (by norm_num) (by norm_num) (by norm_num) (by norm_num)
    (by norm_num) (by norm_num)
  exact ⟨by decide, h.2.2.2.2.2.2.2.1 (by norm_num)⟩

theorem mapM_loadOne (fs : String → Option Img) (W H : ℕ) (cfgs : List TemplateCfg)
    (hall : ∀ t ∈ cfgs, (fs t.path).isSome = true) :
    ∃ l, cfgs.mapM (loadOne fs W H) = Except.ok l ∧
      (l.map fun t => t.region_abs) =
        (cfgs.map fun t => region_from_percent t.zone W H) := by
  induction cfgs with
  | nil => exact ⟨[], rfl, rfl⟩
  | cons a l ih =>
    obtain ⟨img, himg⟩ := Option.isSome_iff_exists.mp (hall a (List.mem_cons_self _ _))
    obtain ⟨l', hl', hreg⟩ := ih fun t ht => hall t (List.mem_cons.mpr (Or.inr ht))
    refine ⟨LoadedTemplate.mk a.name img (region_from_percent a.zone W H) a.threshold
      :: l', ?_, ?_⟩
    · simp only [List.mapM_cons, loadOne, load_template, himg, hl']
      rfl
    · simp only [List.map_cons, hreg]

/-- C5, counterexample: the zone of `badCfg` violates `x1 < x2` and
`y1 < y2`, yet with readable images the constructor succeeds — it returns a
worker whose template carries the degenerate zero-sized region
`(50, 50, 0, 0)` instead of failing fast with a configuration error. -/
theorem claim_C5_counterexample :
    ¬((1 : ℚ)/2 < 1/2) ∧
    ∃ c, initAutoClicker fsAll 100 100 [badCfg] 1 true = Except.ok c ∧
      (c.templates.map fun t => t.region_abs) = [(50, 50, 0, 0)] := by
  exact ⟨by norm_num, ⟨_, rfl, by decide⟩⟩

/-- C5, amended: template loading fails fast only for a missing or
unreadable reference image; zone fractions are never validated — whenever
every configured path (and the two interrupt paths) is readable, the
constructor succeeds for arbitrary zones, silently storing whatever region
`region_from_percent` computes (degenerate or not), and the session has not
started (`stop_flag` still unset, `start_time` still `None`). -/
theorem claim_C5_no_zone_validation (fs : String → Option Img) (W H : ℕ)
    (cfgs : List TemplateCfg) (delay : ℚ) (cb : Bool)
    (hall : ∀ t ∈ cfgs, (fs t.path).isSome = true)
    (ham : (fs AUTOMENU_TEMPLATE.path).isSome = true)
    (hrw : (fs REWARD_TEMPLATE.path).isSome = true) :
    ∃ c, initAutoClicker fs W H cfgs delay cb = Except.ok c ∧
      (c.templates.map fun t => t.region_abs) =
        (cfgs.map fun t => region_from_percent t.zone W H) ∧
      c.stop_flag = false ∧ c.start_time = none := by
  obtain ⟨l, hl, hreg⟩ := mapM_loadOne fs W H cfgs hall
  obtain ⟨amImg, hamImg⟩ := Option.isSome_iff_exists.mp ham
  obtain ⟨rwImg, hrwImg⟩ := Option.isSome_iff_exists.mp hrw
  refine ⟨{ templates := l, delay := delay, stop_flag := false,
            click_counts := cfgs.map fun t => (t.name, 0), on_update := cb,
            start_time := none,
            automenu := LoadedTemplate.mk AUTOMENU_TEMPLATE.name amImg
              (region_from_percent AUTOMENU_TEMPLATE.zone W H)
              AUTOMENU_TEMPLATE.threshold,
            reward := LoadedTemplate.mk REWARD_TEMPLATE.name rwImg
              (region_from_percent REWARD_TEMPLATE.zone W H)
              REWARD_TEMPLATE.threshold }, ?_, hreg, rfl, rfl⟩
  simp only [initAutoClicker, hl, load_template, hamImg, hrwImg]
  rfl

/-- Witness for the amended C5 at a concrete input: with every path readable
the constructor accepts the malformed `badCfg` zone. -/
theorem claim_C5_no_zone_validation_witness :
    ∃ c, initAutoClicker fsAll 100 100 [badCfg] 1 true = Except.ok c ∧
      (c.templates.map fun t => t.region_abs) =
        [region_from_percent badCfg.zone 100 100] ∧
      c.stop_flag = false ∧ c.start_time = none :=
  claim_C5_no_zone_validation fsAll 100 100 [badCfg] 1 true
    (fun t _ => rfl) rfl rfl

theorem scanNormal_misses (env : TickEnv) (onUpd : Bool) (t0 : ℚ)
    (ts : List LoadedTemplate) (counts : List (String × ℕ))
    (shot : LoadedTemplate → Img)
    (hcap : ∀ u ∈ ts, env.cap u.region_abs = Except.ok (shot u))
    (hmiss : ∀ u ∈ ts, match_template (shot u) u.image u.threshold = Except.ok none) :
    scanNormal env onUpd t0 ts counts =
      Except.ok (counts, ts.map fun u => Effect.capture u.region_abs) := by
  induction ts with
  | nil => rfl
  | cons a l ih =>
    have ha1 := hcap a (List.mem_cons_self _ _)
    have ha2 := hmiss a (List.mem_cons_self _ _)
    have ihl := ih (fun u hu => hcap u (List.mem_cons.mpr (Or.inr hu)))
      (fun u hu => hmiss u (List.mem_cons.mpr (Or.inr hu)))
    simp only [scanNormal, ha1, ha2, ihl, List.map_cons]

theorem scanNormal_pre_misses (env : TickEnv) (onUpd : Bool) (t0 : ℚ)
    (pre rest : List LoadedTemplate) (counts : List (String × ℕ))
    (shot : LoadedTemplate → Img)
    (hcap : ∀ u ∈ pre, env.cap u.region_abs = Except.ok (shot u))
    (hmiss : ∀ u ∈ pre, match_template (shot u) u.image u.threshold = Except.ok none) :
    scanNormal env onUpd t0 (pre ++ rest) counts =
      match scanNormal env onUpd t0 rest counts with
      | Except.error e => Except.error e
      | Except.ok (cf, ef) =>
        Except.ok (cf, (pre.map fun u => Effect.capture u.region_abs) ++ ef) := by
  induction pre with
  | nil =>
    simp only [List.nil_append, List.map_nil]
    cases h : scanNormal env onUpd t0 rest counts with
    | error e => rfl
    | ok r => cases r; simp
  | cons a l ih =>
    have ha1 := hcap a (List.mem_cons_self _ _)
    have ha2 := hmiss a (List.mem_cons_self _ _)
    have ihl := ih (fun u hu => hcap u (List.mem_cons.mpr (Or.inr hu)))
      (fun u hu => hmiss u (List.mem_cons.mpr (Or.inr hu)))
    simp only [List.cons_append, scanNormal, ha1, ha2, List.map_cons, List.append_eq, ihl]
    cases h : scanNormal env onUpd t0 rest counts with
    | error e => rfl
    | ok r => cases r; simp

theorem lookupCount_bump_self {counts : List (String × ℕ)} {name : String}
    (h : name ∈ counts.map Prod.fst) :
    lookupCount (bump counts name) name = lookupCount counts name + 1 := by
  induction counts with
  | nil => simp at h
  | cons p l ih =>
    simp only [List.map_cons, List.mem_cons] at h
    have hb : bump (p :: l) name =
        (if p.1 = name then (p.1, p.2 + 1) else p) :: bump l name := rfl
    rw [hb]
    by_cases hpn : p.1 = name
    · rw [if_pos hpn]
      simp only [lookupCount]
      rw [if_pos hpn, if_pos hpn]
    · have h' : name ∈ l.map Prod.fst := h.resolve_left fun hh => hpn hh.symm
      rw [if_neg hpn]
      simp only [lookupCount]
      rw [if_neg hpn, if_neg hpn]
      exact ih h'

theorem lookupCount_bump_le (counts : List (String × ℕ)) (m n : String) :
    lookupCount counts n ≤ lookupCount (bump counts m) n := by
  induction counts with
  | nil => exact le_refl _
  | cons p l ih =>
    have hb : bump (p :: l) m =
        (if p.1 = m then (p.1, p.2 + 1) else p) :: bump l m := rfl
    rw [hb]
    by_cases hpm : p.1 = m
    · rw [if_pos hpm]
      simp only [lookupCount]
      by_cases hpn : p.1 = n
      · rw [if_pos hpn, if_pos hpn]
        exact Nat.le_succ _
      · rw [if_neg hpn, if_neg hpn]
        exact ih
    · rw [if_neg hpm]
      simp only [lookupCount]
      by_cases hpn : p.1 = n
      · rw [if_pos hpn, if_pos hpn]
      · rw [if_neg hpn, if_neg hpn]
        exact ih

/-- C2: for every tick in which an interrupt template hits, that template's
fixed action sequence is executed and the remainder of the tick is skipped:
the automenu interrupt (checked first) hits → ESC, 2 s wait, ENTER, delay
sleep, with no reward check, no normal capture, no click and no counter
change; the reward interrupt (checked second, only after the automenu
missed) hits → ENTER, delay sleep, with no normal capture, no click and no
counter change. -/
theorem claim_C2_interrupt_preempts (env : TickEnv) (c : Clicker) (t0 : ℚ) :
    (∀ amShot p, env.cap c.automenu.region_abs = Except.ok amShot →
      match_template amShot c.automenu.image c.automenu.threshold =
        Except.ok (some p) →
      tick env c t0 = Except.ok (c,
        [Effect.capture c.automenu.region_abs, Effect.press ("esc"), Effect.sleep 2,
         Effect.press ("enter"), Effect.sleep c.delay])) ∧
    (∀ amShot rwShot q, env.cap c.automenu.region_abs = Except.ok amShot →
      match_template amShot c.automenu.image c.automenu.threshold = Except.ok none →
      env.cap c.reward.region_abs = Except.ok rwShot →
      match_template rwShot c.reward.image c.reward.threshold = Except.ok (some q) →
      tick env c t0 = Except.ok (c,
        [Effect.capture c.automenu.region_abs, Effect.capture c.reward.region_abs,
         Effect.press ("enter"), Effect.sleep c.delay])) := by
  constructor
  · intro amShot p h1 h2
    simp only [tick, h1, h2]
  · intro amShot rwShot q h1 h2 h3 h4
    simp only [tick, h1, h2, h3, h4]

/-- Witness for C2 at a concrete input: `cW2`'s automenu template hits on
the captured frame, so the tick performs ESC / wait 2 / ENTER / delay sleep
and leaves the worker (and its counters) unchanged. -/
theorem claim_C2_interrupt_preempts_witness :
    tick envAll cW2 0 = Except.ok (cW2,
      [Effect.capture (0, 0, 2, 1), Effect.press ("esc"), Effect.sleep 2,
       Effect.press ("enter"), Effect.sleep 1]) :=
  (claim_C2_interrupt_preempts envAll cW2 0).1 flatImg (0, 0) rfl rfl

/-- C1: in a tick where both interrupts miss, the normal templates are
scanned in declared order (visible in the capture-effect order); on the
hitting template the click is issued at absolute coordinates
`(region.x + centre.x, region.y + centre.y)`, exactly that template's
counter is incremented by one, and the update callback is invoked with the
counter mapping and the elapsed time since session start. -/
theorem claim_C1_normal_scan (env : TickEnv) (c : Clicker) (t0 : ℚ)
    (pre post : List LoadedTemplate) (t : LoadedTemplate)
    (shot : LoadedTemplate → Img) (amShot rwShot tShot : Img) (cx cy : ℕ)
    (hts : c.templates = pre ++ t :: post)
    (hcb : c.on_update = true)
    (ham1 : env.cap c.automenu.region_abs = Except.ok amShot)
    (ham2 : match_template amShot c.automenu.image c.automenu.threshold =
      Except.ok none)
    (hrw1 : env.cap c.reward.region_abs = Except.ok rwShot)
    (hrw2 : match_template rwShot c.reward.image c.reward.threshold =
      Except.ok none)
    (hpre1 : ∀ u ∈ pre, env.cap u.region_abs = Except.ok (shot u))
    (hpre2 : ∀ u ∈ pre, match_template (shot u) u.image u.threshold = Except.ok none)
    (hpost1 : ∀ u ∈ post, env.cap u.region_abs = Except.ok (shot u))
    (hpost2 : ∀ u ∈ post, match_template (shot u) u.image u.threshold = Except.ok none)
    (ht1 : env.cap t.region_abs = Except.ok tShot)
    (ht2 : match_template tShot t.image t.threshold = Except.ok (some (cx, cy)))
    (hname : t.name ∈ c.click_counts.map Prod.fst) :
    tick env c t0 =
      Except.ok ({ c with click_counts := bump c.click_counts t.name },
        Effect.capture c.automenu.region_abs ::
          Effect.capture c.reward.region_abs ::
            (((pre.map fun u => Effect.capture u.region_abs) ++
              Effect.capture t.region_abs ::
                Effect.click (t.region_abs.1 + (cx : ℤ)) (t.region_abs.2.1 + (cy : ℤ)) ::
                  Effect.update (bump c.click_counts t.name) (env.tnow - t0) ::
                    (post.map fun u => Effect.capture u.region_abs)) ++
              [Effect.sleep c.delay])) ∧
    lookupCount (bump c.click_counts t.name) t.name =
      lookupCount c.click_counts t.name + 1 := by
  refine ⟨?_, lookupCount_bump_self hname⟩
  have hmid : scanNormal env c.on_update t0 (t :: post) c.click_counts =
      Except.ok (bump c.click_counts t.name,
        Effect.capture t.region_abs ::
          Effect.click (t.region_abs.1 + (cx : ℤ)) (t.region_abs.2.1 + (cy : ℤ)) ::
            Effect.update (bump c.click_counts t.name) (env.tnow - t0) ::
              (post.map fun u => Effect.capture u.region_abs)) := by
    have hpost := scanNormal_misses env true t0 post
      (bump c.click_counts t.name) shot hpost1 hpost2
    simp only [scanNormal, ht1, ht2, hcb, if_true, hpost]
    rfl
  have hscan : scanNormal env c.on_update t0 (pre ++ t :: post) c.click_counts =
      Except.ok (bump c.click_counts t.name,
        (pre.map fun u => Effect.capture u.region_abs) ++
          (Effect.capture t.region_abs ::
            Effect.click (t.region_abs.1 + (cx : ℤ)) (t.region_abs.2.1 + (cy : ℤ)) ::
              Effect.update (bump c.click_counts t.name) (env.tnow - t0) ::
                (post.map fun u => Effect.capture u.region_abs))) := by
    rw [scanNormal_pre_misses env c.on_update t0 pre (t :: post) c.click_counts shot
      hpre1 hpre2, hmid]
  simp only [tick, ham1, ham2, hrw1, hrw2, hts, hscan]

/-- Witness for C1 at a concrete input: one normal template, hit at
region-local centre `(0, 0)`, clicked at the absolute region origin
`(20, 0)`; the counter goes from 0 to 1 and the callback receives the new
mapping and the elapsed time 5. -/
theorem claim_C1_normal_scan_witness :
    tick envAll cW1 0 =
      Except.ok ({ cW1 with click_counts := [("confirm_button", 1)] },
        [Effect.capture (0, 0, 2, 1), Effect.capture (10, 0, 2, 1),
         Effect.capture (20, 0, 2, 1), Effect.click 20 0,
         Effect.update [("confirm_button", 1)] 5, Effect.sleep 1]) ∧
    lookupCount [("confirm_button", 1)] ("confirm_button") =
      lookupCount [("confirm_button", 0)] ("confirm_button") + 1 :=
  claim_C1_normal_scan envAll cW1 0 [] [] normHitT (fun _ => flatImg)
    flatImg flatImg flatImg 0 0 rfl rfl rfl rfl rfl rfl
    (fun u hu => absurd hu (List.not_mem_nil u))
    (fun u hu => absurd hu (List.not_mem_nil u))
    (fun u hu => absurd hu (List.not_mem_nil u))
    (fun u hu => absurd hu (List.not_mem_nil u)) rfl rfl
    (by simp [cW1, normHitT])

/-- C7, counterexample: in `cW7`'s tick the capture of the first normal
template's region fails; instead of reporting and continuing with the next
template (which would have matched), the exception aborts the whole tick —
the scan loop returns an error, no counter is incremented and no further
template is scanned. -/
theorem claim_C7_counterexample :
    tick envFail cW7 0 = Except.error RunErr.captureFail ∧
    envFail.cap nextT.region_abs = Except.ok flatImg ∧
    match_template flatImg nextT.image nextT.threshold = Except.ok (some (0, 0)) := by
  exact ⟨rfl, rfl, rfl⟩

/-- C7, amended: a capture failure on any template is an uncaught exception:
it aborts the remainder of the tick (no later template is scanned) and
terminates the scan loop — it is not reported to the observer and the loop
does not continue. -/
theorem claim_C7_failure_aborts :
    (∀ (env : TickEnv) (onUpd : Bool) (t0 : ℚ) (pre : List LoadedTemplate)
      (t : LoadedTemplate) (post : List LoadedTemplate)
      (counts : List (String × ℕ)) (shot : LoadedTemplate → Img) (ce : CapErr),
      (∀ u ∈ pre, env.cap u.region_abs = Except.ok (shot u)) →
      (∀ u ∈ pre, match_template (shot u) u.image u.threshold = Except.ok none) →
      env.cap t.region_abs = Except.error ce →
      scanNormal env onUpd t0 (pre ++ t :: post) counts =
        Except.error RunErr.captureFail) ∧
    (∀ env c t0 rest e, env.stopFlag = false → tick env c t0 = Except.error e →
      runLoop (env :: rest) c t0 = Except.error e) := by
  constructor
  · intro env onUpd t0 pre t post counts shot ce h1 h2 hfail
    rw [scanNormal_pre_misses env onUpd t0 pre (t :: post) counts shot h1 h2]
    simp only [scanNormal, hfail]
  · intro env c t0 rest e hflag herr
    simp only [runLoop, hflag, herr, Bool.false_eq_true, if_false]

/-- Witness for the amended C7 at a concrete input. -/
theorem claim_C7_failure_aborts_witness :
    scanNormal envFail true 0 [failT, nextT] [("first_button", 0), ("second_button", 0)] =
      Except.error RunErr.captureFail ∧
    runLoop [envFail] cW7 0 = Except.error RunErr.captureFail :=
  ⟨claim_C7_failure_aborts.1 envFail true 0 [] failT [nextT]
      [("first_button", 0), ("second_button", 0)] (fun _ => flatImg)
      CapErr.captureUnavailable
      (fun u hu => absurd hu (List.not_mem_nil u))
      (fun u hu => absurd hu (List.not_mem_nil u)) rfl,
    claim_C7_failure_aborts.2 envFail cW7 0 [] RunErr.captureFail rfl rfl⟩

theorem scanNormal_counts_le (env : TickEnv) (onUpd : Bool) (t0 : ℚ)
    (ts : List LoadedTemplate) :
    ∀ (counts cf : List (String × ℕ)) (ef : List Effect),
      scanNormal env onUpd t0 ts counts = Except.ok (cf, ef) →
      ∀ n, lookupCount counts n ≤ lookupCount cf n := by
  induction ts with
  | nil =>
    intro counts cf ef h n
    unfold scanNormal at h
    simp only [Except.ok.injEq, Prod.mk.injEq] at h
    rw [← h.1]
  | cons a l ih =>
    intro counts cf ef h n
    unfold scanNormal at h
    cases hc : env.cap a.region_abs with
    | error e =>
      simp only [hc] at h
      exact Except.noConfusion h
    | ok shot =>
      simp only [hc] at h
      cases hm : match_template shot a.image a.threshold with
      | error e =>
        simp only [hm] at h
        exact Except.noConfusion h
      | ok r =>
        cases r with
        | none =>
          cases hs : scanNormal env onUpd t0 l counts with
          | error e =>
            simp only [hm, hs] at h
            exact Except.noConfusion h
          | ok r2 =>
            obtain ⟨cf2, ef2⟩ := r2
            simp only [hm, hs, Except.ok.injEq, Prod.mk.injEq] at h
            rw [← h.1]
            exact ih counts cf2 ef2 hs n
        | some p =>
          obtain ⟨cx, cy⟩ := p
          cases hs : scanNormal env onUpd t0 l (bump counts a.name) with
          | error e =>
            simp only [hm, hs] at h
            exact Except.noConfusion h
          | ok r2 =>
            obtain ⟨cf2, ef2⟩ := r2
            simp only [hm, hs, Except.ok.injEq, Prod.mk.injEq] at h
            rw [← h.1]
            exact le_trans (lookupCount_bump_le counts a.name n)
              (ih (bump counts a.name) cf2 ef2 hs n)

theorem tick_counts_le (env : TickEnv) (c : Clicker) (t0 : ℚ) (c' : Clicker)
    (effs : List Effect) (h : tick env c t0 = Except.ok (c', effs)) (n : String) :
    lookupCount c.click_counts n ≤ lookupCount c'.click_counts n := by
  unfold tick at h
  cases hc : env.cap c.automenu.region_abs with
  | error e =>
    simp only [hc] at h
    exact Except.noConfusion h
  | ok amShot =>
    simp only [hc] at h
    cases hm : match_template amShot c.automenu.image c.automenu.threshold with
    | error e =>
      simp only [hm] at h
      exact Except.noConfusion h
    | ok r =>
      cases r with
      | some p =>
        simp only [hm, Except.ok.injEq, Prod.mk.injEq] at h
        rw [← h.1]
      | none =>
        cases hc2 : env.cap c.reward.region_abs with
        | error e =>
          simp only [hm, hc2] at h
          exact Except.noConfusion h
        | ok rwShot =>
          simp only [hm, hc2] at h
          cases hm2 : match_template rwShot c.reward.image c.reward.threshold with
          | error e =>
            simp only [hm2] at h
            exact Except.noConfusion h
          | ok r2 =>
            cases r2 with
            | some q =>
              simp only [hm2, Except.ok.injEq, Prod.mk.injEq] at h
              rw [← h.1]
            | none =>
              cases hs : scanNormal env c.on_update t0 c.templates c.click_counts with
              | error e =>
                simp only [hm2, hs] at h
                exact Except.noConfusion h
              | ok r3 =>
                obtain ⟨cf, ef⟩ := r3
                simp only [hm2, hs, Except.ok.injEq, Prod.mk.injEq] at h
                rw [← h.1]
                exact scanNormal_counts_le env c.on_update t0 c.templates
                  c.click_counts cf ef hs n

theorem runLoop_counts_le (envs : List TickEnv) :
    ∀ (c : Clicker) (t0 : ℚ) (c' : Clicker) (effs : List Effect),
      runLoop envs c t0 = Except.ok (c', effs) →
      ∀ n, lookupCount c.click_counts n ≤ lookupCount c'.click_counts n := by
  induction envs with
  | nil =>
    intro c t0 c' effs h n
    unfold runLoop at h
    simp only [Except.ok.injEq, Prod.mk.injEq] at h
    rw [← h.1]
  | cons env rest ih =>
    intro c t0 c' effs h n
    unfold runLoop at h
    by_cases hf : env.stopFlag = true
    · rw [if_pos hf] at h
      simp only [Except.ok.injEq, Prod.mk.injEq] at h
      rw [← h.1]
    · rw [if_neg hf] at h
      cases ht : tick env c t0 with
      | error e =>
        simp only [ht] at h
        exact Except.noConfusion h
      | ok r =>
        obtain ⟨c1, effs1⟩ := r
        simp only [ht] at h
        cases hr : runLoop rest c1 t0 with
        | error e =>
          simp only [hr] at h
          exact Except.noConfusion h
        | ok r2 =>
          obtain ⟨cf, ef2⟩ := r2
          simp only [hr, Except.ok.injEq, Prod.mk.injEq] at h
          rw [← h.1]
          exact le_trans (tick_counts_le env c t0 c1 effs1 ht n)
            (ih c1 t0 cf ef2 hr n)

/-- C9: every per-template counter is a natural number (hence non-negative)
and never decreases: each tick, and any run of the scan loop, either leaves
a counter unchanged or increments it. -/
theorem claim_C9_counters_monotone :
    (∀ (env : TickEnv) (c : Clicker) (t0 : ℚ) (c' : Clicker) (effs : List Effect),
      tick env c t0 = Except.ok (c', effs) →
      ∀ n, lookupCount c.click_counts n ≤ lookupCount c'.click_counts n) ∧
    (∀ (envs : List TickEnv) (c : Clicker) (t0 : ℚ) (c' : Clicker)
      (effs : List Effect),
      runLoop envs c t0 = Except.ok (c', effs) →
      ∀ n, lookupCount c.click_counts n ≤ lookupCount c'.click_counts n) :=
  ⟨tick_counts_le, fun envs => runLoop_counts_le envs⟩

/-- Witness for C9 at a concrete input: an interrupt tick leaves the counter
at its old value, and the inequality follows from the theorem. -/
theorem claim_C9_counters_monotone_witness :
    tick envAll cW2 0 = Except.ok (cW2,
      [Effect.capture (0, 0, 2, 1), Effect.press ("esc"), Effect.sleep 2,
       Effect.press ("enter"), Effect.sleep 1]) ∧
    lookupCount cW2.click_counts ("confirm_button") ≤
      lookupCount cW2.click_counts ("confirm_button") :=
  ⟨rfl, claim_C9_counters_monotone.1 envAll cW2 0 cW2
    [Effect.capture (0, 0, 2, 1), Effect.press ("esc"), Effect.sleep 2,
     Effect.press ("enter"), Effect.sleep 1] rfl ("confirm_button")⟩

/-- C10: `stop()` only sets the stop flag — the counters, the loaded
templates with their images and regions, the delay, the callback, the
recorded start time and the interrupt templates are all unchanged; and a
loop that observes the stop flag exits immediately, returning the worker
state (hence the counters of the last completed tick) untouched. -/
theorem claim_C10_stop_frame :
    (∀ c : Clicker, (Clicker.stop c).click_counts = c.click_counts ∧
      (Clicker.stop c).templates = c.templates ∧
      (Clicker.stop c).delay = c.delay ∧
      (Clicker.stop c).start_time = c.start_time ∧
      (Clicker.stop c).on_update = c.on_update ∧
      (Clicker.stop c).automenu = c.automenu ∧
      (Clicker.stop c).reward = c.reward ∧
      (Clicker.stop c).stop_flag = true) ∧
    (∀ (env : TickEnv) (rest : List TickEnv) (c : Clicker) (t0 : ℚ),
      env.stopFlag = true → runLoop (env :: rest) c t0 = Except.ok (c, [])) := by
  constructor
  · intro c
    exact ⟨rfl, rfl, rfl, rfl, rfl, rfl, rfl, rfl⟩
  · intro env rest c t0 hflag
    unfold runLoop
    rw [if_pos hflag]

/-- Witness for C10 at a concrete input: a loop whose first environment has
the stop flag set returns `cW1` unchanged. -/
theorem claim_C10_stop_frame_witness :
    runLoop [envStop] cW1 0 = Except.ok (cW1, []) :=
  claim_C10_stop_frame.2 envStop [] cW1 0 rfl

/-- C8, counterexample: from a running state, `restart_clicker` does not
equal a stop followed by a start — the code's restart stops the worker and
resets the displayed variables, but spawns no new worker, so the session is
left stopped (while stop-then-start leaves a live worker). -/
theorem claim_C8_counterexample :
    restart_clicker appSt0 ≠ start_clicker (stop_clicker appSt0) ∧
    (restart_clicker appSt0).workerAlive = false ∧
    (start_clicker (stop_clicker appSt0)).workerAlive = true := by
  exact ⟨by decide, rfl, rfl⟩

/-- C8, amended: for every prior state, `restart_clicker` performs a stop
and resets every displayed per-template counter to `"0"` and the elapsed
display to `"0.0 s"`; it does not start a new worker — the session stays
stopped until `start` is invoked again. -/
theorem claim_C8_restart_resets (st : AppSt) :
    (restart_clicker st).workerAlive = false ∧
    ((restart_clicker st).countVars.all fun p => p.2 == "0") = true ∧
    (restart_clicker st).timeVar = "0.0 s" := by
  refine ⟨?_, ?_, rfl⟩
  · unfold restart_clicker stop_clicker
    cases hb : st.workerAlive <;> simp [hb]
  · unfold restart_clicker stop_clicker
    cases hb : st.workerAlive <;> simp [hb, List.all_eq_true]

end BlueArchiveAutoplay
